import Mathlib

/-!
Verification of the focal-length reporting pipeline in
`src/analyze_focal_lengths.py`.

The script is embedded shallowly:
* Python floats are modelled as rationals (`ℚ`); every numeric value the
  script manipulates in the properties below (integer focal lengths,
  multiplication by the crop factor `1.5`) is exactly representable as a
  binary double, so the rational model agrees with IEEE-754 evaluation.
* `round` is Python 3's builtin: nearest integer, ties to even.
* Fallible steps (the `exiftool` subprocess, `float(...)`, `.upper()` on
  `None`) return `Except PyErr`; an uncaught exception aborts `main`.
* The external `exiftool` invocation is abstracted by the list of output
  lines (`out.strip().splitlines()`), or a `PyErr` when the subprocess
  fails (`check=True` raises `CalledProcessError`; a missing binary raises
  `FileNotFoundError`).
* File-system discovery (`root.rglob("*")`) is abstracted by the list of
  files found, each carrying its `pathlib` suffix; writing the three output
  files is modelled by the `Outputs` value returned on success — the script
  performs all writes only after every check has passed, which the model
  mirrors by constructing `Outputs` only in the final branch.
-/

namespace FocalLengths

/-- Python exception kinds that the script can raise. -/
inductive PyErr
  | calledProcessError
  | fileNotFoundError
  | valueError
  | attributeError
deriving DecidableEq, Repr

instance {ε α : Type} [DecidableEq ε] [DecidableEq α] : DecidableEq (Except ε α) := fun a b =>
  match a, b with
  | .error e, .error f =>
      if h : e = f then .isTrue (by rw [h]) else .isFalse (fun hc => h (by cases hc; rfl))
  | .ok x, .ok y =>
      if h : x = y then .isTrue (by rw [h]) else .isFalse (fun hc => h (by cases hc; rfl))
  | .error _, .ok _ => .isFalse (fun hc => Except.noConfusion hc)
  | .ok _, .error _ => .isFalse (fun hc => Except.noConfusion hc)

/-- `begWith pat l` : `pat` is an initial segment of `l`. -/
def begWith {α : Type} [DecidableEq α] : List α → List α → Bool
  | [], _ => true
  | _ :: _, [] => false
  | a :: as, b :: bs => decide (a = b) && begWith as bs

/-- `segIn pat l` : `pat` occurs contiguously inside `l`
(Python's `pat in l` on strings, after `toList`). -/
def segIn {α : Type} [DecidableEq α] (pat : List α) : List α → Bool
  | [] => pat.isEmpty
  | x :: xs => begWith pat (x :: xs) || segIn pat xs

/-- Python's substring test `pat in s`. -/
def strContainsB (s pat : String) : Bool := segIn pat.toList s.toList

/-- ASCII uppercasing of one character, as `str.upper()` does on the ASCII
strings involved here. -/
def upChar (c : Char) : Char :=
  if 'a' ≤ c ∧ c ≤ 'z' then Char.ofNat (c.toNat - 32) else c

/-- Python `s.upper()` (ASCII). -/
def pyUpper (s : String) : String := String.mk (s.toList.map upChar)

/-- ASCII lowercasing of one character, as `str.lower()` does on the ASCII
strings involved here. -/
def lowChar (c : Char) : Char :=
  if 'A' ≤ c ∧ c ≤ 'Z' then Char.ofNat (c.toNat + 32) else c

/-- Python `s.lower()` (ASCII). -/
def pyLower (s : String) : String := String.mk (s.toList.map lowChar)

/-- Python truthiness of an optional float: `None` and `0.0` are falsy. -/
def truthy : Option ℚ → Bool
  | none => false
  | some q => decide (q ≠ 0)

/-- Python 3's builtin `round` on an exactly-representable value: nearest
integer, ties to even.  Computed on the reduced fraction `num/den`
(`den > 0`): the floor is `num.fdiv den`, and the fractional remainder
`num - floor * den` over `den` is compared with `1/2` after
cross-multiplying by `2 * den`. -/
def pythonRound (q : ℚ) : ℤ :=
  let f : ℤ := q.num.fdiv q.den
  let rem2 : ℤ := 2 * (q.num - f * q.den)
  if rem2 < (q.den : ℤ) then f
  else if (q.den : ℤ) < rem2 then f + 1
  else if f % 2 = 0 then f else f + 1

/-- Value of a list of ASCII digits read in base 10. -/
def digitsVal (l : List Char) : ℕ :=
  l.foldl (fun a c => a * 10 + (c.toNat - 48)) 0

/-- A character matched by the regex class `[\d.]` (ASCII digits here). -/
def isNumChar (c : Char) : Bool := c.isDigit || c = '.'

/-- The text matched by `re.match(r"([\d.]+)", s)`: the maximal leading run
of digits and dots (empty list = no match). -/
def leadingNum (s : String) : List Char := s.toList.takeWhile isNumChar

/-- Python `float(...)` applied to a nonempty string of digits and dots:
valid iff it has at most one dot and at least one digit.  The text before
the dot is the integer part, the text after it the fractional part. -/
def pyFloatOfMatch (l : List Char) : Option ℚ :=
  if l.count '.' = 0 then some (digitsVal l)
  else if l.count '.' = 1 then
    if l.takeWhile (fun c => c ≠ '.') = [] ∧ (l.dropWhile (fun c => c ≠ '.')).tail = [] then
      none
    else
      some ((digitsVal (l.takeWhile (fun c => c ≠ '.')) : ℚ)
        + (digitsVal ((l.dropWhile (fun c => c ≠ '.')).tail) : ℚ)
          / 10 ^ ((l.dropWhile (fun c => c ≠ '.')).tail).length)
  else none

/-- `to_float(s)`: `m = num.match(s or ""); float(m.group(1)) if m else None`.
`float` raises `ValueError` when the matched text is not a valid decimal
(e.g. `"."` or `"1.2.3"`). -/
def to_float (s : Option String) : Except PyErr (Option ℚ) :=
  if leadingNum (s.getD "") = [] then .ok none
  else
    match pyFloatOfMatch (leadingNum (s.getD "")) with
    | some q => .ok (some q)
    | none => .error .valueError

/-- The metadata record built by `exif_vals`: the five dict values for keys
`Make, Model, FL, FL35, FL35Comp` (a value is `none` when the tool emitted
fewer lines, via the `lines + [None]*5` padding). -/
structure Meta where
  Make : Option String
  Model : Option String
  FL : Option String
  FL35 : Option String
  FL35Comp : Option String
deriving DecidableEq, Repr

/-- `dict(zip(keys, lines + [None]*5))` over the five fixed keys. -/
def exif_vals_parse (lines : List String) : Meta :=
  { Make := lines[0]?, Model := lines[1]?, FL := lines[2]?,
    FL35 := lines[3]?, FL35Comp := lines[4]? }

/-- The five dict values in key order, for indexed statements. -/
def metaFields (m : Meta) : List (Option String) :=
  [m.Make, m.Model, m.FL, m.FL35, m.FL35Comp]

/-- `exif_vals`: run the tool (`check=True`: a failure raises) and parse its
output lines. -/
def exif_vals (toolResult : Except PyErr (List String)) : Except PyErr Meta :=
  match toolResult with
  | .error e => .error e
  | .ok lines => .ok (exif_vals_parse lines)

/-- `camera(meta)`: canonical display label from make/model. -/
def camera (meta : Meta) : String :=
  let make := pyUpper (meta.Make.getD "")
  let model := meta.Model.getD ""
  if strContainsB make "APPLE" then "iPhone"
  else if strContainsB make "FUJIFILM" then
    (if strContainsB (pyUpper model) "X-T5" then "XT5" else model)
  else if model ≠ "" then model
  else if make ≠ "" then make
  else "Unknown"

/-- `CROP_APSC = 1.5`. -/
def CROP_APSC : ℚ := 3 / 2

/-- `ff_equiv(meta, native)`: 35-mm-equivalent focal length.
Note `meta.get("Make","")` yields the stored value (all five keys are always
present), so a `None` make reaches `.upper()` and raises `AttributeError`
in the crop-factor branch. -/
def ff_equiv (meta : Meta) (native : Option ℚ) : Except PyErr (Option ℚ) :=
  match to_float meta.FL35Comp with
  | .error e => .error e
  | .ok mm =>
    if truthy mm then .ok mm
    else
      match to_float meta.FL35 with
      | .error e => .error e
      | .ok mm2 =>
        if truthy mm2 then .ok mm2
        else
          match native with
          | none => .ok none
          | some n =>
            match meta.Make with
            | none => .error .attributeError
            | some mk =>
              .ok (some (if strContainsB (pyUpper mk) "FUJIFILM" then n * CROP_APSC else n))

/-- A discovered file: its `pathlib` suffix and the outcome of the
`exiftool` subprocess on it. -/
structure FSFile where
  suffix : String
  toolLines : Except PyErr (List String)
deriving DecidableEq, Repr

def IMG_EXTS : List String := [".jpg", ".jpeg", ".heic", ".heif"]

/-- `f.suffix.lower() in IMG_EXTS`. -/
def supported (f : FSFile) : Bool := IMG_EXTS.contains (pyLower f.suffix)

/-- `Counter`-style increment: missing keys count 0, so a fresh key enters
with count 1; insertion order is preserved as in a Python dict. -/
def bump {K : Type} [DecidableEq K] : List (K × ℕ) → K → List (K × ℕ)
  | [], k => [(k, 1)]
  | (k', c) :: rest, k =>
    if k' = k then (k', c + 1) :: rest else (k', c) :: bump rest k

/-- Sum of all counts of a counter. -/
def histTotal {K : Type} (m : List (K × ℕ)) : ℕ := (m.map Prod.snd).sum

/-- Count stored for key `k` (0 when absent). -/
def histCount {K : Type} [DecidableEq K] (k : K) : List (K × ℕ) → ℕ
  | [] => 0
  | (a, c) :: rest => if a = k then c else histCount k rest

/-- The two counters accumulated by the scan loop. -/
structure HistState where
  hist : List (ℤ × ℕ)
  camfx : List ((String × ℤ × ℤ) × ℕ)
deriving DecidableEq, Repr

/-- The per-file body of the scan loop up to (and excluding) the counter
updates: `meta = exif_vals(f); native = to_float(meta.get("FL"));
ff_mm = ff_equiv(meta, native); cam = camera(meta)`. -/
def fileObs (f : FSFile) : Except PyErr (Option ℚ × Option ℚ × String) :=
  match exif_vals f.toolLines with
  | .error e => .error e
  | .ok meta =>
    match to_float meta.FL with
    | .error e => .error e
    | .ok native =>
      match ff_equiv meta native with
      | .error e => .error e
      | .ok ff => .ok (native, ff, camera meta)

/-- Whether a file yields a usable (truthy) 35-mm-equivalent value. -/
def usableFF (f : FSFile) : Bool :=
  match fileObs f with
  | .ok (_, ff, _) => truthy ff
  | .error _ => false

/-- Whether a file yields both a usable native focal length and a usable
35-mm-equivalent value (the guard of the per-camera counter update). -/
def usableBoth (f : FSFile) : Bool :=
  match fileObs f with
  | .ok (native, ff, _) => truthy native && truthy ff
  | .error _ => false

/-- One iteration of the scan loop: `if ff_mm: hist[round(ff_mm)] += 1;
if native and ff_mm: camfx[(cam, round(native), round(ff_mm))] += 1`.
Any exception propagates (the loop has no handler). -/
def processFile (acc : HistState) (f : FSFile) : Except PyErr HistState :=
  match fileObs f with
  | .error e => .error e
  | .ok (native, ff_mm, cam) =>
    .ok { hist := if truthy ff_mm then bump acc.hist (pythonRound (ff_mm.getD 0)) else acc.hist,
          camfx :=
            if truthy native && truthy ff_mm then
              bump acc.camfx (cam, pythonRound (native.getD 0), pythonRound (ff_mm.getD 0))
            else acc.camfx }

/-- Lexicographic combination of a relation on the first component (used
strictly) with a relation on the second, as Python compares tuples. -/
def lexRel {α β : Type} (la : α → α → Prop) (rb : β → β → Prop) (p q : α × β) : Prop :=
  la p.1 q.1 ∨ (p.1 = q.1 ∧ rb p.2 q.2)

instance {α β : Type} (la : α → α → Prop) (rb : β → β → Prop)
    [DecidableEq α] [DecidableRel la] [DecidableRel rb] : DecidableRel (lexRel la rb) :=
  fun p q => by unfold lexRel; infer_instance

theorem lexRel_trans {α β : Type} {la : α → α → Prop} {rb : β → β → Prop}
    (hla : Transitive la) (hrb : Transitive rb) : Transitive (lexRel la rb) := by
  rintro x y z (h1 | ⟨e1, h1⟩) (h2 | ⟨e2, h2⟩)
  · exact Or.inl (hla h1 h2)
  · exact Or.inl (e2 ▸ h1)
  · exact Or.inl (e1 ▸ h2)
  · exact Or.inr ⟨e1.trans e2, hrb h1 h2⟩

theorem lexRel_trichot {α β : Type} {la : α → α → Prop} {lb : β → β → Prop}
    (hla : ∀ x y, la x y ∨ x = y ∨ la y x) (hlb : ∀ x y, lb x y ∨ x = y ∨ lb y x) :
    ∀ p q, lexRel la lb p q ∨ p = q ∨ lexRel la lb q p := by
  rintro ⟨a, b⟩ ⟨c, d⟩
  rcases hla a c with h | h | h
  · exact Or.inl (Or.inl h)
  · rcases hlb b d with h2 | h2 | h2
    · exact Or.inl (Or.inr ⟨h, h2⟩)
    · exact Or.inr (Or.inl (by rw [h, h2]))
    · exact Or.inr (Or.inr (Or.inr ⟨h.symm, h2⟩))
  · exact Or.inr (Or.inr (Or.inl h))

theorem lexRel_total {α β : Type} {la : α → α → Prop} {rb : β → β → Prop}
    (hla : ∀ x y, la x y ∨ x = y ∨ la y x) (hrb : ∀ x y, rb x y ∨ rb y x) :
    ∀ p q, lexRel la rb p q ∨ lexRel la rb q p := by
  intro p q
  rcases hla p.1 q.1 with h | h | h
  · exact Or.inl (Or.inl h)
  · rcases hrb p.2 q.2 with h2 | h2
    · exact Or.inl (Or.inr ⟨h, h2⟩)
    · exact Or.inr (Or.inr ⟨h.symm, h2⟩)
  · exact Or.inr (Or.inl h)

/-- Order in which `sorted(hist.items())` lists the histogram items. -/
def leKey2 : (ℤ × ℕ) → (ℤ × ℕ) → Prop :=
  lexRel (fun a b : ℤ => a < b) (fun a b : ℕ => a ≤ b)

/-- Strict lexicographic order on an integer pair. -/
def ltInt2 : (ℤ × ℤ) → (ℤ × ℤ) → Prop :=
  lexRel (fun a b : ℤ => a < b) (fun a b : ℤ => a < b)

/-- Strict lexicographic order on a `(camera, native, ff)` triple, with
strings compared as Python compares them (code-point lexicographic). -/
def ltTriple : (String × ℤ × ℤ) → (String × ℤ × ℤ) → Prop :=
  lexRel (fun a b : String => a < b) ltInt2

/-- Order in which `sorted(camfx.items())` lists the per-camera items. -/
def leKey4 : ((String × ℤ × ℤ) × ℕ) → ((String × ℤ × ℤ) × ℕ) → Prop :=
  lexRel ltTriple (fun a b : ℕ => a ≤ b)

instance : DecidableRel leKey2 := by unfold leKey2; infer_instance

instance : DecidableRel ltInt2 := by unfold ltInt2; infer_instance

/-- A decision procedure for `String` order that the kernel can evaluate
(character-list comparison, i.e. code-point lexicographic order — exactly
how Python compares the camera labels). -/
def strLtDec (a b : String) : Decidable (a < b) :=
  decidable_of_iff (a.toList < b.toList) String.lt_iff_toList_lt.symm

instance : DecidableRel ltTriple := fun p q => by
  haveI d1 : Decidable (p.1 < q.1) := strLtDec p.1 q.1
  unfold ltTriple lexRel
  infer_instance

instance : DecidableRel leKey4 := by unfold leKey4; infer_instance

instance : IsTotal (ℤ × ℕ) leKey2 :=
  ⟨lexRel_total (fun x y => lt_trichotomy x y) (fun x y => Nat.le_total x y)⟩

instance : IsTrans (ℤ × ℕ) leKey2 :=
  ⟨fun _ _ _ h1 h2 =>
    @lexRel_trans ℤ ℕ (fun a b => a < b) (fun a b => a ≤ b)
      (fun _ _ _ ha hb => lt_trans ha hb) (fun _ _ _ ha hb => le_trans ha hb) _ _ _ h1 h2⟩

theorem ltInt2_trichot : ∀ p q, ltInt2 p q ∨ p = q ∨ ltInt2 q p :=
  lexRel_trichot (fun x y => lt_trichotomy x y) (fun x y => lt_trichotomy x y)

theorem ltInt2_trans : Transitive ltInt2 :=
  lexRel_trans (fun _ _ _ ha hb => lt_trans ha hb) (fun _ _ _ ha hb => lt_trans ha hb)

theorem ltTriple_trichot : ∀ p q, ltTriple p q ∨ p = q ∨ ltTriple q p :=
  lexRel_trichot (fun x y => lt_trichotomy x y) ltInt2_trichot

theorem ltTriple_trans : Transitive ltTriple :=
  lexRel_trans (fun _ _ _ ha hb => lt_trans ha hb) ltInt2_trans

instance : IsTotal ((String × ℤ × ℤ) × ℕ) leKey4 :=
  ⟨lexRel_total ltTriple_trichot (fun x y => Nat.le_total x y)⟩

instance : IsTrans ((String × ℤ × ℤ) × ℕ) leKey4 :=
  ⟨fun _ _ _ h1 h2 =>
    @lexRel_trans (String × ℤ × ℤ) ℕ ltTriple (fun a b => a ≤ b)
      ltTriple_trans (fun _ _ _ ha hb => le_trans ha hb) _ _ _ h1 h2⟩

/-- One CSV data row of `focal_length_histogram.csv`. -/
def histRow (p : ℤ × ℕ) : List String := [toString p.1, toString p.2]

/-- One CSV data row of `camera_focal_usage.csv`. -/
def camRow (p : (String × ℤ × ℤ) × ℕ) : List String :=
  [p.1.1, toString p.1.2.1, toString p.1.2.2, toString p.2]

/-- Rows of `focal_length_histogram.csv`: header then
`sorted(hist.items())`. -/
def histogram_csv (hist : List (ℤ × ℕ)) : List (List String) :=
  ["focal_mm_35eq", "count"] :: (List.insertionSort leKey2 hist).map histRow

/-- Rows of `camera_focal_usage.csv`: header then
`sorted(camfx.items())`. -/
def camera_csv (camfx : List ((String × ℤ × ℤ) × ℕ)) : List (List String) :=
  ["camera", "native_mm", "focal_mm_35eq", "count"] :: (List.insertionSort leKey4 camfx).map camRow

/-- The three files written on success: the two CSVs, and the bar-chart
data (`sorted(hist.items())`, from which `zip(*...)` takes the axes). -/
structure Outputs where
  histCsv : List (List String)
  camCsv : List (List String)
  chart : List (ℤ × ℕ)
deriving DecidableEq, Repr

/-- How the process terminates unsuccessfully: `sys.exit(msg)` (diagnostic,
exit code 1), or an uncaught Python exception (traceback, exit code 1).
Either way the run ends before any output file is written. -/
inductive ExitErr
  | sysExit (msg : String)
  | uncaught (e : PyErr)
deriving DecidableEq, Repr

/-- `main(folder)`.  `root` is the folder text (used in the diagnostic),
`rootIsDir` the result of `root.is_dir()`, and `tree` the files found by
`root.rglob("*")` together with each file's `exiftool` outcome. -/
def main (root : String) (rootIsDir : Bool) (tree : List FSFile) : Except ExitErr Outputs :=
  if rootIsDir = false then .error (.sysExit ("Folder not found: " ++ root))
  else
    let files := tree.filter supported
    if files = [] then .error (.sysExit "No supported images found.")
    else
      match List.foldlM processFile ⟨[], []⟩ files with
      | .error e => .error (.uncaught e)
      | .ok st =>
        if st.hist = [] then .error (.sysExit "No focal-length data found (tags missing).")
        else .ok { histCsv := histogram_csv st.hist,
                   camCsv := camera_csv st.camfx,
                   chart := List.insertionSort leKey2 st.hist }

/-! ### Counter lemmas -/

theorem histTotal_cons {K : Type} (p : K × ℕ) (m : List (K × ℕ)) :
    histTotal (p :: m) = p.2 + histTotal m := by
  simp [histTotal]

theorem bump_total {K : Type} [DecidableEq K] (m : List (K × ℕ)) (k : K) :
    histTotal (bump m k) = histTotal m + 1 := by
  induction m with
  | nil => rfl
  | cons p rest ih =>
    obtain ⟨k', c⟩ := p
    by_cases h : k' = k
    · subst h
      have hb : bump ((k', c) :: rest) k' = (k', c + 1) :: rest := by simp [bump]
      rw [hb]
      simp only [histTotal_cons]
      omega
    · have hb : bump ((k', c) :: rest) k = (k', c) :: bump rest k := by simp [bump, h]
      rw [hb]
      simp only [histTotal_cons, ih]
      omega

theorem bump_pos {K : Type} [DecidableEq K] (m : List (K × ℕ)) (k : K)
    (h : ∀ p ∈ m, 1 ≤ p.2) : ∀ p ∈ bump m k, 1 ≤ p.2 := by
  induction m with
  | nil =>
    intro p hp
    simp [bump] at hp
    subst hp
    exact Nat.le_refl 1
  | cons q rest ih =>
    obtain ⟨a, c⟩ := q
    intro p hp
    by_cases hk : a = k
    · simp only [bump, if_pos hk] at hp
      rcases List.mem_cons.mp hp with hp | hp
      · subst hp
        exact Nat.succ_le_succ (Nat.zero_le c)
      · exact h p (List.mem_cons_of_mem _ hp)
    · simp only [bump, if_neg hk] at hp
      rcases List.mem_cons.mp hp with hp | hp
      · subst hp
        exact h (a, c) (List.mem_cons_self _ _)
      · exact ih (fun q hq => h q (List.mem_cons_of_mem _ hq)) p hp

theorem histCount_bump {K : Type} [DecidableEq K] (m : List (K × ℕ)) (k k' : K) :
    histCount k' (bump m k) = histCount k' m + (if k' = k then 1 else 0) := by
  induction m with
  | nil =>
    by_cases h : k' = k
    · subst h
      simp [bump, histCount]
    · have h' : ¬ k = k' := fun hh => h hh.symm
      simp [bump, histCount, h, h']
  | cons q rest ih =>
    obtain ⟨a, c⟩ := q
    by_cases hak : a = k
    · subst hak
      by_cases hk : a = k'
      · subst hk
        simp [bump, histCount]
      · have h' : ¬ k' = a := fun hh => hk hh.symm
        simp [bump, histCount, hk, h']
    · by_cases hk : a = k'
      · subst hk
        simp [bump, histCount, hak]
      · simp [bump, histCount, hak, hk, ih]

/-! ### Scan-loop lemmas -/

theorem processFile_ok_elim {acc acc' : HistState} {f : FSFile}
    (h : processFile acc f = .ok acc') :
    ∃ native ff cam, fileObs f = .ok (native, ff, cam)
      ∧ acc'.hist = (if truthy ff then bump acc.hist (pythonRound (ff.getD 0)) else acc.hist)
      ∧ acc'.camfx = (if truthy native && truthy ff then
          bump acc.camfx (cam, pythonRound (native.getD 0), pythonRound (ff.getD 0))
          else acc.camfx)
      ∧ usableFF f = truthy ff
      ∧ usableBoth f = (truthy native && truthy ff) := by
  cases hobs : fileObs f with
  | error e => simp [processFile, hobs] at h
  | ok t =>
    obtain ⟨native, ff, cam⟩ := t
    simp only [processFile, hobs, Except.ok.injEq] at h
    subst h
    exact ⟨native, ff, cam, rfl, rfl, rfl, by simp [usableFF, hobs], by simp [usableBoth, hobs]⟩

theorem scan_totals (files : List FSFile) :
    ∀ acc st, List.foldlM processFile acc files = Except.ok st →
      histTotal st.hist = histTotal acc.hist + (files.filter (fun f => usableFF f)).length
      ∧ histTotal st.camfx = histTotal acc.camfx + (files.filter (fun f => usableBoth f)).length
      ∧ ((∀ p ∈ acc.hist, 1 ≤ p.2) → ∀ p ∈ st.hist, 1 ≤ p.2) := by
  induction files with
  | nil =>
    intro acc st h
    have h' : (Except.ok acc : Except PyErr HistState) = Except.ok st := h
    injection h' with h2
    subst h2
    simp
  | cons f rest ih =>
    intro acc st h
    rw [List.foldlM_cons] at h
    cases hpf : processFile acc f with
    | error e =>
      rw [hpf] at h
      exact Except.noConfusion (show (Except.error e : Except PyErr HistState) = Except.ok st from h)
    | ok acc' =>
      rw [hpf] at h
      have h2 : List.foldlM processFile acc' rest = Except.ok st := h
      obtain ⟨native, ff, cam, hobs, hh, hc, hu, hb⟩ := processFile_ok_elim hpf
      obtain ⟨ihA, ihB, ihC⟩ := ih acc' st h2
      refine ⟨?_, ?_, ?_⟩
      · rw [ihA, hh, List.filter_cons, hu]
        by_cases hff : truthy ff <;> simp [hff, bump_total] <;> omega
      · rw [ihB, hc, List.filter_cons, hb]
        by_cases hna : truthy native <;> by_cases hff : truthy ff <;>
          simp [hna, hff, bump_total] <;> omega
      · intro hmin
        apply ihC
        rw [hh]
        by_cases hff : truthy ff
        · simpa [hff] using bump_pos acc.hist _ hmin
        · simpa [hff] using hmin

theorem usableFF_of_both {f : FSFile} (h : usableBoth f = true) : usableFF f = true := by
  unfold usableBoth at h
  unfold usableFF
  cases hobs : fileObs f with
  | error e => rw [hobs] at h; exact h
  | ok t =>
    obtain ⟨native, ff, cam⟩ := t
    rw [hobs] at h
    simp at h
    simp [h.2]

theorem filter_both_le (files : List FSFile) :
    (files.filter (fun f => usableBoth f)).length ≤ (files.filter (fun f => usableFF f)).length := by
  induction files with
  | nil => simp
  | cons f rest ih =>
    simp only [List.filter_cons]
    by_cases hb : usableBoth f
    · simp [hb, usableFF_of_both hb]
      omega
    · by_cases hff : usableFF f <;> simp [hb, hff] <;> omega

theorem foldlM_error_of_mem (files : List FSFile) (f : FSFile) (e : PyErr)
    (hmem : f ∈ files) (hf : fileObs f = .error e) :
    ∀ acc, ∃ e', List.foldlM processFile acc files = .error e' := by
  induction files with
  | nil => cases hmem
  | cons g rest ih =>
    intro acc
    rw [List.foldlM_cons]
    cases hpg : processFile acc g with
    | error e2 =>
      exact ⟨e2, rfl⟩
    | ok acc' =>
      rcases List.mem_cons.mp hmem with rfl | hmem'
      · simp [processFile, hf] at hpg
      · obtain ⟨e', he'⟩ := ih hmem' acc'
        exact ⟨e', he'⟩

/-! ### Numeric-parsing lemmas -/

theorem pyFloatOfMatch_none_iff (l : List Char) (hl : l ≠ []) :
    pyFloatOfMatch l = none ↔ 2 ≤ l.count '.' ∨ l = ['.'] := by
  unfold pyFloatOfMatch
  by_cases d0 : l.count '.' = 0
  · have hne : l ≠ ['.'] := by
      intro h
      rw [h] at d0
      simp at d0
    have h2 : ¬ 2 ≤ l.count '.' := by omega
    simp [d0, h2, hne]
  · by_cases d1 : l.count '.' = 1
    · rw [if_neg d0, if_pos d1]
      have h2 : ¬ 2 ≤ l.count '.' := by omega
      constructor
      · intro h
        by_cases hc : l.takeWhile (fun c => c ≠ '.') = []
            ∧ (l.dropWhile (fun c => c ≠ '.')).tail = []
        · right
          obtain ⟨hip, hfp⟩ := hc
          cases l with
          | nil => exact absurd rfl hl
          | cons a t =>
            by_cases ha : a = '.'
            · subst ha
              have hd : (List.dropWhile (fun c => c ≠ '.') ('.' :: t)).tail = t := by
                simp [List.dropWhile]
              rw [hd] at hfp
              rw [hfp]
            · simp [List.takeWhile, ha] at hip
        · rw [if_neg hc] at h
          exact Option.noConfusion h
      · intro h
        rcases h with h | h
        · exact absurd h h2
        · subst h
          rw [if_pos ⟨by decide, by decide⟩]
    · have h2 : 2 ≤ l.count '.' := by omega
      rw [if_neg d0, if_neg d1]
      simp [h2]

theorem to_float_error_iff (s : String) :
    to_float (some s) = .error .valueError
      ↔ 2 ≤ (leadingNum s).count '.' ∨ leadingNum s = ['.'] := by
  unfold to_float
  by_cases hl : leadingNum s = []
  · simp [Option.getD, hl]
  · simp only [Option.getD, if_neg hl]
    rw [← pyFloatOfMatch_none_iff _ hl]
    cases hm : pyFloatOfMatch (leadingNum s) <;> simp [hm]

theorem to_float_none_of_no_lead (s : String) (h : leadingNum s = []) :
    to_float (some s) = .ok none := by
  simp [to_float, h]

/-! ### Sample inputs used by the concrete parts of the claims -/

/-- A JPEG whose `exiftool` run succeeds: Apple phone, native 4 mm,
composite 35-mm value 35. -/
def exGoodFile : FSFile := ⟨".jpg", .ok ["Apple", "iPhone", "4 mm", "", "35 mm"]⟩

/-- A JPEG (upper-case suffix) from a full-frame camera: native 23 mm,
composite 35-mm value 23. -/
def exSonyFile : FSFile := ⟨".JPG", .ok ["SONY", "A7", "23 mm", "", "23 mm"]⟩

/-- A JPEG with a usable 35-mm value but no native focal length. -/
def exNoNativeFile : FSFile := ⟨".jpg", .ok ["Apple", "iPhone", "", "", "35 mm"]⟩

/-- A JPEG for which the `exiftool` subprocess fails (non-zero exit under
`check=True`). -/
def exBadFile : FSFile := ⟨".jpg", .error .calledProcessError⟩

/-- A JPEG whose `exiftool` run succeeds but reports no tags at all. -/
def exNoTagFile : FSFile := ⟨".jpg", .ok []⟩

/-- Metadata of a Fujifilm file with a known native focal length and no
35-mm tags, as reaches `ff_equiv` for `native = 23`. -/
def fujiMeta : Meta := ⟨some "FUJIFILM", some "X-T5", some "23 mm", none, none⟩

/-- Metadata whose composite 35-mm field parses to `0.0` while the separate
35-mm tag parses to `35.0`. -/
def zeroCompMeta : Meta := ⟨some "X", some "Y", none, some "35", some "0"⟩

/-! ### Claims -/

/-- C1, counterexample: the scan loop has no handler around `exif_vals`, so
a `CalledProcessError` from the first file aborts the whole run (uncaught
exception, non-zero exit, no outputs), even though the second file alone
would have produced a complete report.  This falsifies the claim that a
per-file tool failure is skipped and does not affect the exit code. -/
theorem C1_counterexample :
    main "photos" true [exBadFile, exGoodFile] = .error (.uncaught .calledProcessError)
    ∧ main "photos" true [exGoodFile] = .ok
        ⟨[["focal_mm_35eq", "count"], ["35", "1"]],
         [["camera", "native_mm", "focal_mm_35eq", "count"], ["iPhone", "4", "35", "1"]],
         [(35, 1)]⟩ := by
  exact ⟨by decide, by decide⟩

/-- C1, amended: a failure of the external metadata tool for any discovered
supported file aborts the overall scan — the exception propagates uncaught,
the process exits non-zero, and no output value is produced. -/
theorem C1_amended_scan_aborts (root : String) (tree : List FSFile) (f : FSFile) (e : PyErr)
    (hmem : f ∈ tree.filter supported) (htool : f.toolLines = .error e) :
    ∃ e', main root true tree = .error (.uncaught e') := by
  have hobs : fileObs f = .error e := by
    simp [fileObs, exif_vals, htool]
  have hne : tree.filter supported ≠ [] := List.ne_nil_of_mem hmem
  obtain ⟨e', he'⟩ := foldlM_error_of_mem (tree.filter supported) f e hmem hobs ⟨[], []⟩
  exact ⟨e', by simp [main, hne, he']⟩

/-- Witness for the amended C1. -/
theorem C1_amended_witness :
    ∃ e', main "photos" true [exBadFile, exGoodFile] = .error (.uncaught e') :=
  C1_amended_scan_aborts "photos" [exBadFile, exGoodFile] exBadFile .calledProcessError
    (by decide) rfl

/-- C2, counterexample: for metadata with the Fujifilm marker and no 35-mm
tags, `ff_equiv` on a native 23 mm yields `34.5`, but Python's `round`
(ties to even) maps `34.5` to the histogram key `34`, not `35` as the
claim states. -/
theorem C2_counterexample :
    ff_equiv fujiMeta (some 23) = .ok (some ((69 : ℚ) / 2))
    ∧ pythonRound ((69 : ℚ) / 2) = 34
    ∧ pythonRound ((69 : ℚ) / 2) ≠ 35 := by
  refine ⟨?_, ?_, ?_⟩
  · have h : ff_equiv fujiMeta (some 23) = .ok (some ((23 : ℚ) * CROP_APSC)) := rfl
    have hm : (23 : ℚ) * CROP_APSC = (69 : ℚ) / 2 := by norm_num [CROP_APSC]
    rw [h, hm]
  · norm_num [pythonRound]
    decide
  · norm_num [pythonRound]
    decide

/-- C2, amended: when neither 35-mm tag is usable and the native focal
length is known, the normalizer multiplies by `1.5` exactly when the
manufacturer text contains `FUJIFILM` case-insensitively (else by `1.0`);
native 23 with the marker gives `34.5`, which Python's round-half-to-even
maps to `34` (not `35`); native 23 without the marker stays `23`. -/
theorem C2_amended_crop_rule (meta : Meta) (mk : String) (n : ℚ) (c t : Option ℚ)
    (hc : to_float meta.FL35Comp = .ok c) (hct : truthy c = false)
    (ht : to_float meta.FL35 = .ok t) (htt : truthy t = false)
    (hmk : meta.Make = some mk) :
    ff_equiv meta (some n)
      = .ok (some (if strContainsB (pyUpper mk) "FUJIFILM" then n * CROP_APSC else n))
    ∧ pythonRound ((23 : ℚ) * CROP_APSC) = 34
    ∧ pythonRound (23 : ℚ) = 23 := by
  refine ⟨?_, ?_, ?_⟩
  · unfold ff_equiv
    rw [hc]
    simp only [hct, Bool.false_eq_true, if_false]
    rw [ht]
    simp only [htt, Bool.false_eq_true, if_false]
    rw [hmk]
  · have hm : (23 : ℚ) * CROP_APSC = (69 : ℚ) / 2 := by norm_num [CROP_APSC]
    rw [hm]
    norm_num [pythonRound]
    decide
  · decide

/-- C3: after a completed scan the histogram counts sum to the number of
scanned files with a usable 35-mm value; every stored key has count at
least 1 (no zero-count entries); a file with no usable value leaves the
histogram untouched; and each loop iteration can only increase any key's
count. -/
theorem C3_histogram_invariants (files : List FSFile) (st : HistState)
    (h : List.foldlM processFile ⟨[], []⟩ files = Except.ok st) :
    histTotal st.hist = (files.filter (fun f => usableFF f)).length
    ∧ (∀ p ∈ st.hist, 1 ≤ p.2)
    ∧ (∀ acc acc' f, processFile acc f = .ok acc' → usableFF f = false →
        acc'.hist = acc.hist)
    ∧ (∀ acc acc' f k, processFile acc f = .ok acc' →
        histCount k acc.hist ≤ histCount k acc'.hist) := by
  obtain ⟨hA, _, hC⟩ := scan_totals files ⟨[], []⟩ st h
  refine ⟨?_, ?_, ?_, ?_⟩
  · simpa [histTotal] using hA
  · exact hC (by simp)
  · intro acc acc' f hpf hun
    obtain ⟨native, ff, cam, hobs, hh, hc, hu, hb⟩ := processFile_ok_elim hpf
    have hft : truthy ff = false := hu.symm.trans hun
    rw [hh, if_neg (by simp [hft])]
  · intro acc acc' f k hpf
    obtain ⟨native, ff, cam, hobs, hh, hc, hu, hb⟩ := processFile_ok_elim hpf
    rw [hh]
    by_cases hff : truthy ff
    · rw [if_pos hff, histCount_bump]
      exact Nat.le_add_right _ _
    · rw [if_neg hff]

/-- Witness for C3. -/
theorem C3_witness :
    histTotal [((35 : ℤ), 2)]
      = ([exGoodFile, exNoNativeFile, exNoTagFile].filter (fun f => usableFF f)).length
    ∧ (∀ p ∈ [((35 : ℤ), 2)], 1 ≤ p.2) :=
  have h := C3_histogram_invariants [exGoodFile, exNoNativeFile, exNoTagFile]
    ⟨[(35, 2)], [(("iPhone", 4, 35), 1)]⟩ (by decide)
  ⟨h.1, h.2.1⟩

/-- C4: a missing/non-directory root, an empty set of supported files, and
a scan in which no file produced a usable value each terminate the run with
the corresponding `sys.exit` diagnostic before any output is constructed;
the empty-histogram condition holds exactly when no scanned file yielded a
usable value; and an erroring run never also produces outputs. -/
theorem C4_no_partial_output (root : String) (rootIsDir : Bool) (tree : List FSFile) :
    (rootIsDir = false →
      main root rootIsDir tree = .error (.sysExit ("Folder not found: " ++ root)))
    ∧ (tree.filter supported = [] →
      main root true tree = .error (.sysExit "No supported images found."))
    ∧ (∀ st, List.foldlM processFile ⟨[], []⟩ (tree.filter supported) = Except.ok st →
        st.hist = [] → tree.filter supported ≠ [] →
        main root true tree = .error (.sysExit "No focal-length data found (tags missing)."))
    ∧ (∀ st, List.foldlM processFile ⟨[], []⟩ (tree.filter supported) = Except.ok st →
        (st.hist = [] ↔ ((tree.filter supported).filter (fun f => usableFF f)).length = 0))
    ∧ (∀ msg out, main root rootIsDir tree = .error msg →
        main root rootIsDir tree ≠ .ok out) := by
  refine ⟨?_, ?_, ?_, ?_, ?_⟩
  · intro h
    simp [main, h]
  · intro h
    simp [main, h]
  · intro st hscan hhist hne
    simp [main, hne, hscan, hhist]
  · intro st hscan
    obtain ⟨hA, _, hC⟩ := scan_totals (tree.filter supported) ⟨[], []⟩ st hscan
    have hmin : ∀ p ∈ st.hist, 1 ≤ p.2 := hC (by simp)
    constructor
    · intro h
      rw [h] at hA
      simpa [histTotal] using hA.symm
    · intro h
      rw [h] at hA
      cases hh : st.hist with
      | nil => rfl
      | cons p rest =>
        exfalso
        rw [hh, histTotal_cons] at hA
        have := hmin p (hh ▸ List.mem_cons_self p rest)
        simp [histTotal] at hA
        omega
  · intro msg out herr hok
    rw [herr] at hok
    exact Except.noConfusion hok

/-- Witness for C4. -/
theorem C4_witness :
    main "missing" false [] = .error (.sysExit ("Folder not found: " ++ "missing"))
    ∧ main "empty" true [] = .error (.sysExit "No supported images found.")
    ∧ main "photos" true [exNoTagFile]
        = .error (.sysExit "No focal-length data found (tags missing).") :=
  ⟨(C4_no_partial_output "missing" false []).1 rfl,
   (C4_no_partial_output "empty" true []).2.1 rfl,
   (C4_no_partial_output "photos" true [exNoTagFile]).2.2.1 ⟨[], []⟩
     (by decide) rfl (by decide)⟩

/-- C5, counterexample: with a composite 35-mm field `"0"` (which parses to
the number `0.0`) and a separate tag `"35"`, `ff_equiv` returns `35.0` from
the separate tag, not the composite value — Python's truthiness test skips
a zero composite, falsifying the claim for records where both fields parse
to a number. -/
theorem C5_counterexample :
    to_float zeroCompMeta.FL35Comp = .ok (some 0)
    ∧ to_float zeroCompMeta.FL35 = .ok (some 35)
    ∧ ff_equiv zeroCompMeta none = .ok (some 35) := by
  exact ⟨by decide, by decide, by decide⟩

/-- C5, amended: the composite value wins whenever it parses to a nonzero
number; a composite that is absent, unparseable, or parses to zero is
skipped, and then a separate tag parsing to a nonzero number wins. -/
theorem C5_amended_priority :
    (∀ meta native c, to_float meta.FL35Comp = .ok (some c) → c ≠ 0 →
        ff_equiv meta native = .ok (some c))
    ∧ (∀ meta native c t, to_float meta.FL35Comp = .ok c → truthy c = false →
        to_float meta.FL35 = .ok (some t) → t ≠ 0 →
        ff_equiv meta native = .ok (some t)) := by
  constructor
  · intro meta native c hc hc0
    have htr : truthy (some c) = true := by simp [truthy, hc0]
    unfold ff_equiv
    rw [hc]
    simp [htr]
  · intro meta native c t hc hct ht ht0
    have htr : truthy (some t) = true := by simp [truthy, ht0]
    unfold ff_equiv
    rw [hc]
    simp only [hct, Bool.false_eq_true, if_false]
    rw [ht]
    simp [htr]

/-- Witness for the amended C5. -/
theorem C5_amended_witness :
    ff_equiv ⟨some "X", some "Y", none, some "35", some "5"⟩ none = .ok (some 5)
    ∧ ff_equiv zeroCompMeta none = .ok (some 35) :=
  ⟨C5_amended_priority.1 ⟨some "X", some "Y", none, some "35", some "5"⟩ none 5
      (by decide) (by decide),
   C5_amended_priority.2 zeroCompMeta none (some 0) 35
      (by decide) (by decide) (by decide) (by decide)⟩

/-- C6: the camera identifier's ordered, case-insensitive rules —
`"APPLE INC."` maps to `"iPhone"`; Fujifilm with model `"X-T5 "` maps to
`"XT5"`; Fujifilm with model `"X100V"` keeps the model text; empty make and
model give `"Unknown"`; and in the final fallback a non-empty model wins
over the manufacturer text. -/
theorem C6_camera_rules :
    camera ⟨some "APPLE INC.", none, none, none, none⟩ = "iPhone"
    ∧ camera ⟨some "FUJIFILM", some "X-T5 ", none, none, none⟩ = "XT5"
    ∧ camera ⟨some "FUJIFILM", some "X100V", none, none, none⟩ = "X100V"
    ∧ camera ⟨some "", some "", none, none, none⟩ = "Unknown"
    ∧ (∀ meta : Meta,
        strContainsB (pyUpper (meta.Make.getD "")) "APPLE" = false →
        strContainsB (pyUpper (meta.Make.getD "")) "FUJIFILM" = false →
        meta.Model.getD "" ≠ "" →
        camera meta = meta.Model.getD "") := by
  refine ⟨by decide, by decide, by decide, by decide, ?_⟩
  intro meta h1 h2 h3
  unfold camera
  simp [h1, h2, h3]

/-- Witness for C6's universal fallback part. -/
theorem C6_witness :
    camera ⟨some "SONY", some "A7 IV", none, none, none⟩ = "A7 IV" := by
  have h := C6_camera_rules.2.2.2.2 ⟨some "SONY", some "A7 IV", none, none, none⟩
    (by decide) (by decide) (by decide)
  exact h

/-- C7, counterexample: `to_float` is not error-free on every input — on
`"."` the regex matches `"."` and Python's `float(".")` raises
`ValueError` — while `"35 mm"` does parse to `35.0`.  This falsifies the
claim that the parser raises no error on any input. -/
theorem C7_counterexample :
    to_float (some ".") = .error .valueError
    ∧ to_float (some "35 mm") = .ok (some 35) := by
  exact ⟨by decide, by decide⟩

/-- C7, amended: `"35 mm"` parses to `35.0`; a missing field, an empty
string, or any string with no leading digit-or-dot character is treated as
absent (never zero, never an error); an error (`ValueError`) occurs exactly
when the leading digits-and-dots run is nonempty but is not a valid decimal
— more than one dot, or the single character `"."`. -/
theorem C7_amended_parsing :
    to_float (some "35 mm") = .ok (some 35)
    ∧ to_float none = .ok none
    ∧ to_float (some "") = .ok none
    ∧ (∀ s, leadingNum s = [] → to_float (some s) = .ok none)
    ∧ (∀ s, to_float (some s) = .error .valueError
        ↔ 2 ≤ (leadingNum s).count '.' ∨ leadingNum s = ['.']) := by
  exact ⟨by decide, rfl, by decide, to_float_none_of_no_lead, to_float_error_iff⟩

/-- Witness for the amended C7. -/
theorem C7_amended_witness :
    to_float (some "mm 35") = .ok none
    ∧ to_float (some "1.2.3") = .error .valueError :=
  ⟨C7_amended_parsing.2.2.2.1 "mm 35" (by decide),
   (C7_amended_parsing.2.2.2.2 "1.2.3").mpr (by decide)⟩

/-- C8: when the tool emits fewer than the five expected lines, the
extractor still succeeds and every field beyond the emitted lines is
absent (`None`), so partial metadata alone never raises. -/
theorem C8_partial_lines (lines : List String) (h : lines.length < 5) :
    exif_vals (.ok lines) = .ok (exif_vals_parse lines)
    ∧ (∀ i : Fin 5, lines.length ≤ i.val →
        (metaFields (exif_vals_parse lines))[i.val]? = some none) := by
  refine ⟨rfl, ?_⟩
  intro i hi
  obtain ⟨iv, hiv⟩ := i
  interval_cases iv <;>
    simp_all [metaFields, exif_vals_parse, List.getElem?_eq_none]

/-- Witness for C8. -/
theorem C8_witness :
    exif_vals (.ok ["Apple", "iPhone 6"]) = .ok (exif_vals_parse ["Apple", "iPhone 6"])
    ∧ (metaFields (exif_vals_parse ["Apple", "iPhone 6"]))[4]? = some none :=
  have h := C8_partial_lines ["Apple", "iPhone 6"] (by decide)
  ⟨h.1, h.2 4 (by decide)⟩

/-- C9: both CSVs start with their fixed header followed by exactly the
counter's items (one data row per observed key), listed in the ascending
order Python's `sorted` gives the items; and on a 3-JPEG directory in which
two files share the rounded value 35 and one has 23, the run produces a
histogram CSV with exactly two data rows, counts 1 and 2, ascending by
value. -/
theorem C9_reporter :
    (∀ hist : List (ℤ × ℕ), ∃ l, List.Perm l hist ∧ List.Sorted leKey2 l
        ∧ histogram_csv hist = ["focal_mm_35eq", "count"] :: l.map histRow)
    ∧ (∀ camfx : List ((String × ℤ × ℤ) × ℕ), ∃ l, List.Perm l camfx ∧ List.Sorted leKey4 l
        ∧ camera_csv camfx = ["camera", "native_mm", "focal_mm_35eq", "count"] :: l.map camRow)
    ∧ main "photos" true [exGoodFile, exGoodFile, exSonyFile] = .ok
        ⟨[["focal_mm_35eq", "count"], ["23", "1"], ["35", "2"]],
         [["camera", "native_mm", "focal_mm_35eq", "count"],
          ["A7", "23", "23", "1"], ["iPhone", "4", "35", "2"]],
         [(23, 1), (35, 2)]⟩ := by
  refine ⟨?_, ?_, by decide⟩
  · intro hist
    exact ⟨List.insertionSort leKey2 hist, List.perm_insertionSort leKey2 hist,
      List.sorted_insertionSort leKey2 hist, rfl⟩
  · intro camfx
    exact ⟨List.insertionSort leKey4 camfx, List.perm_insertionSort leKey4 camfx,
      List.sorted_insertionSort leKey4 camfx, rfl⟩

/-- C10: the per-camera counter records only files whose native focal
length is also usable, so its grand total never exceeds the overall
histogram's; a file with a usable 35-mm value but absent (or zero) native
value bumps the histogram while leaving the per-camera counter unchanged;
and on a concrete two-file scan the per-camera total (1) is strictly below
the histogram total (2). -/
theorem C10_per_camera_undercount (files : List FSFile) (st : HistState)
    (h : List.foldlM processFile ⟨[], []⟩ files = Except.ok st) :
    histTotal st.camfx ≤ histTotal st.hist
    ∧ (∀ acc acc' f native ff cam, fileObs f = .ok (native, ff, cam) →
        truthy ff = true → truthy native = false → processFile acc f = .ok acc' →
        acc'.hist = bump acc.hist (pythonRound (ff.getD 0)) ∧ acc'.camfx = acc.camfx)
    ∧ List.foldlM processFile ⟨[], []⟩ [exGoodFile, exNoNativeFile]
        = .ok ⟨[(35, 2)], [(("iPhone", 4, 35), 1)]⟩
    ∧ histTotal [(("iPhone", 4, 35), 1)] < histTotal [((35 : ℤ), 2)] := by
  refine ⟨?_, ?_, by decide, by decide⟩
  · obtain ⟨hA, hB, _⟩ := scan_totals files ⟨[], []⟩ st h
    rw [hA, hB]
    simpa [histTotal] using filter_both_le files
  · intro acc acc' f native ff cam hobs hff hna hpf
    obtain ⟨native', ff', cam', hobs', hh, hc, hu, hb⟩ := processFile_ok_elim hpf
    rw [hobs] at hobs'
    injection hobs' with hteq
    obtain ⟨h1, h2, h3⟩ : native = native' ∧ ff = ff' ∧ cam = cam' := by
      refine ⟨congrArg Prod.fst hteq, ?_, ?_⟩
      · exact congrArg (fun t => t.2.1) hteq
      · exact congrArg (fun t => t.2.2) hteq
    subst h1; subst h2; subst h3
    constructor
    · rw [hh, if_pos hff]
    · rw [hc, if_neg (by simp [hna])]

/-- Witness for C10. -/
theorem C10_witness :
    histTotal (⟨[(35, 2)], [(("iPhone", 4, 35), 1)]⟩ : HistState).camfx
      ≤ histTotal (⟨[(35, 2)], [(("iPhone", 4, 35), 1)]⟩ : HistState).hist :=
  (C10_per_camera_undercount [exGoodFile, exNoNativeFile]
    ⟨[(35, 2)], [(("iPhone", 4, 35), 1)]⟩ (by decide)).1

/-- Witness for the amended C2. -/
theorem C2_amended_witness :
    ff_equiv fujiMeta (some 23)
      = .ok (some (if strContainsB (pyUpper "FUJIFILM") "FUJIFILM"
          then (23 : ℚ) * CROP_APSC else 23))
    ∧ pythonRound ((23 : ℚ) * CROP_APSC) = 34
    ∧ pythonRound (23 : ℚ) = 23 :=
  C2_amended_crop_rule fujiMeta "FUJIFILM" 23 none none rfl rfl rfl rfl rfl

end FocalLengths
